import Mathlib

set_option maxHeartbeats 1000000

/-!
Verification of the Triton load-balancer controller.

Go strings are modelled as `List Char`, Go `int` as `Int` (64-bit; range
checks are made explicit where `strconv` semantics depend on them), Go
`error` results as `Except (List Char)` values carrying the message, and
remote-API interactions as environments of responses together with a log
of the calls issued.
-/

namespace TritonLB

/-- Go strings are modelled as lists of characters. -/
abbrev Str := List Char

/-- Go `strings.Split` with a one-character separator: splits at every
occurrence, keeps empty fields, and returns one empty field for the empty
string. -/
def splitOnChar (sep : Char) : Str → List Str
  | [] => [[]]
  | c :: rest =>
    if c = sep then [] :: splitOnChar sep rest
    else
      match splitOnChar sep rest with
      | [] => [[c]]
      | g :: gs => (c :: g) :: gs

/-- Go `strings.SplitN(entry, "://", 2)`: split around the first occurrence
of `"://"`; `none` when the separator is absent (Go then returns a single
segment, which `parsePortMap` rejects via `len(parts) != 2`). -/
def splitSep : Str → Option (Str × Str)
  | [] => none
  | c :: rest =>
    if c = ':' ∧ rest.take 2 = ['/', '/'] then some ([], rest.drop 2)
    else
      match splitSep rest with
      | some (a, b) => some (c :: a, b)
      | none => none

/-- Go `strings.Contains`: `pat` occurs as a contiguous substring. -/
def containsSeq (pat : Str) : Str → Bool
  | [] => decide (pat = [])
  | c :: rest => pat.isPrefixOf (c :: rest) || containsSeq pat rest

/-- Decimal digit character, `'0'` + d. -/
def digitChar (d : Nat) : Char := Char.ofNat (48 + d)

/-- Value of a decimal digit character, `none` for non-digits. -/
def digitVal? (c : Char) : Option Nat :=
  if '0' ≤ c ∧ c ≤ '9' then some (c.toNat - 48) else none

/-- Accumulating decimal reader over a digit string; fails on the first
non-digit character. -/
def parseDigitsAux (acc : Nat) : Str → Option Nat
  | [] => some acc
  | c :: cs =>
    match digitVal? c with
    | some d => parseDigitsAux (10 * acc + d) cs
    | none => none

/-- Syntax of Go `strconv.ParseInt(s, 10, 64)`: an optional sign followed
by one or more decimal digits; the numeric value, unbounded. -/
def parseDec? (s : Str) : Option Int :=
  match s with
  | [] => none
  | c :: cs =>
    if c = '-' then
      if cs = [] then none
      else
        match parseDigitsAux 0 cs with
        | some n => some (-(n : Int))
        | none => none
    else if c = '+' then
      if cs = [] then none
      else
        match parseDigitsAux 0 cs with
        | some n => some ((n : Int))
        | none => none
    else
      match parseDigitsAux 0 (c :: cs) with
      | some n => some ((n : Int))
      | none => none

/-- Largest Go `int` (64-bit) value. -/
def int64Max : Int := 9223372036854775807

/-- Smallest Go `int` (64-bit) value. -/
def int64Min : Int := -9223372036854775808

/-- Go `strconv.Atoi` when its error is checked: `some v` exactly when
`err == nil`, i.e. valid syntax and in the 64-bit range. -/
def atoi? (s : Str) : Option Int :=
  match parseDec? s with
  | none => none
  | some v => if int64Min ≤ v ∧ v ≤ int64Max then some v else none

/-- Value returned by Go `strconv.Atoi` when its error is discarded
(`v, _ := strconv.Atoi(s)`): 0 on a syntax error, the clamped bound on a
range error, the value otherwise. -/
def atoiVal (s : Str) : Int :=
  match parseDec? s with
  | none => 0
  | some v => if int64Max < v then int64Max else if v < int64Min then int64Min else v

/-- Fuelled decimal printer for naturals (fuel ≥ n + 1 suffices). -/
def natDigitsF : Nat → Nat → Str
  | 0, _ => []
  | fuel + 1, n =>
    if n < 10 then [digitChar n]
    else natDigitsF fuel (n / 10) ++ [digitChar (n % 10)]

/-- Decimal representation of a natural number. -/
def natDigits (n : Nat) : Str := natDigitsF (n + 1) n

/-- Go `strconv.Itoa`. -/
def itoa (v : Int) : Str := if v < 0 then '-' :: natDigits v.natAbs else natDigits v.natAbs

/-- Comma-joining loop used for metadata values (`for i, x := range xs
{ if i > 0 { s += "," }; s += x }`). -/
def joinComma : List Str → Str
  | [] => []
  | x :: xs =>
    match xs with
    | [] => x
    | _ :: _ => x ++ ',' :: joinComma xs

/-- Separator predicate of the metrics-ACL `strings.FieldsFunc` call:
a comma or a space. -/
def isAclSep (c : Char) : Bool := c = ',' || c = ' '

/-- Naive split on ACL separators, keeping empty fields. -/
def splitAnyAcl : Str → List Str
  | [] => [[]]
  | c :: rest =>
    if isAclSep c then [] :: splitAnyAcl rest
    else
      match splitAnyAcl rest with
      | [] => [[c]]
      | g :: gs => (c :: g) :: gs

/-- Go `strings.FieldsFunc` on ACL separators: the non-empty fields, in
order (the source's extra `acl != ""` filter is a no-op on top of this). -/
def fieldsAcl (s : Str) : List Str := (splitAnyAcl s).filter (fun f => f ≠ [])

/-- PortMapping from pkg/triton: one `type://listen:backend[:port]` entry. -/
structure PortMapping where
  Typ : Str
  ListenPort : Int
  BackendName : Str
  BackendPort : Int
deriving DecidableEq

/-- Parsing of one portmap entry, as in the body of `parsePortMap`'s loop:
split on `"://"` (exactly two segments or drop), split the remainder on
`':'` (at least two parts or drop), listen port must satisfy `Atoi`
(else drop), backend port uses `Atoi`'s value with the error discarded. -/
def parseEntry (entry : Str) : Option PortMapping :=
  match splitSep entry with
  | none => none
  | some (portType, rest) =>
    match splitOnChar ':' rest with
    | p0 :: p1 :: ps =>
      (match atoi? p0 with
       | none => none
       | some lp =>
         some { Typ := portType, ListenPort := lp, BackendName := p1,
                BackendPort := match ps with | [] => 0 | p2 :: _ => atoiVal p2 })
    | _ => none

/-- pkg/triton `parsePortMap`: split the metadata string on commas and keep
the entries that parse, in order. -/
def parsePortMap (s : Str) : List PortMapping :=
  (splitOnChar ',' s).filterMap parseEntry

/-- One entry of the portmap-building loop of `CreateLoadBalancer` and
`UpdateLoadBalancer`: `type + "://" + listen + ":" + name`, with
`":" + backendPort` appended only when the backend port is positive. -/
def encodeEntry (m : PortMapping) : Str :=
  m.Typ ++ (':' :: '/' :: '/' ::
    (itoa m.ListenPort ++ (':' ::
      (m.BackendName ++ (if m.BackendPort > 0 then ':' :: itoa m.BackendPort else [])))))

/-- The portmap-building loop of `CreateLoadBalancer` / `UpdateLoadBalancer`:
entries joined by commas. -/
def encodePortMap (l : List PortMapping) : Str := joinComma (l.map encodeEntry)

/-- LoadBalancerParams from pkg/triton. -/
structure LoadBalancerParams where
  Name : Str
  PortMappings : List PortMapping
  MaxBackends : Int
  CertificateName : Str
  MetricsACL : List Str
deriving DecidableEq

/-- One port of a Service spec: name, listen port, and the target port's
integer value. -/
structure ServicePort where
  Name : Str
  Port : Int
  TargetPort : Int
deriving DecidableEq

/-- The parts of a corev1.Service read by the controller: identity, the
spec type, the port list, the annotation map (as an association list), and
whether the deletion timestamp is set. -/
structure Service where
  Name : Str
  SvcType : Str
  Ports : List ServicePort
  Annots : List (Str × Str)
  DeletionMarker : Bool

/-- Annotation key for the maximum backend count. -/
def maxRsKey : Str := "cloud.tritoncompute/max_rs".data

/-- Annotation key for the certificate subject. -/
def certKey : Str := "cloud.tritoncompute/certificate_name".data

/-- Annotation key for the metrics ACL. -/
def aclKey : Str := "cloud.tritoncompute/metrics_acl".data

/-- Port-classification chain of `extractLoadBalancerParams`: default
`"tcp"`, overridden to `"http"` when the name is `"http"` or the port is
80, else to `"https"` when the name is `"https"` or the port is 443. -/
def portTypeOf (name : Str) (port : Int) : Str :=
  if name = "http".data ∨ port = 80 then "http".data
  else if name = "https".data ∨ port = 443 then "https".data
  else "tcp".data

/-- pkg/controller `extractLoadBalancerParams`: the pure transform from a
Service to LoadBalancerParams, paired with the error it returns (always
`none`: the source ends in `return params, nil`). -/
def extractLoadBalancerParams (svc : Service) : LoadBalancerParams × Option Str :=
  ({ Name := svc.Name
     PortMappings := svc.Ports.map (fun p =>
       { Typ := portTypeOf p.Name p.Port, ListenPort := p.Port,
         BackendName := svc.Name, BackendPort := p.TargetPort })
     MaxBackends :=
       match svc.Annots.lookup maxRsKey with
       | some s => (match atoi? s with | some v => v | none => 0)
       | none => 0
     CertificateName := (svc.Annots.lookup certKey).getD []
     MetricsACL :=
       match svc.Annots.lookup aclKey with
       | some s => fieldsAcl s
       | none => [] }, none)

/-- ctrl.Result: requeue flag and requeue-after delay (seconds; the zero
value is `ctrl.Result{}`). -/
structure GoResult where
  Requeue : Bool
  RequeueAfter : Int
deriving DecidableEq

/-- Observable side effects issued by one reconcile pass, in order. -/
inductive Action where
  | getLB
  | createLB
  | updateLB
  | getInstance
  | deleteLB
  | statusWrite (ip : Str)
deriving DecidableEq

/-- Instance data the controller reads back for the status update. -/
structure TritonInstance where
  ID : Str
  Name : Str
  IPs : List Str
deriving DecidableEq

/-- Responses of the Triton client and the status subresource for the calls
reconcileNormal can make, one per call site. -/
structure NormalEnv where
  getLB1 : Except Str (Option LoadBalancerParams)
  createResp : Except Str Unit
  updateResp : Except Str Unit
  getLB2 : Except Str (Option LoadBalancerParams)
  getInst : Except Str (Option TritonInstance)
  statusResp : Except Str Unit

/-- Private-range test of the status-IP loop: `strings.HasPrefix` against
`"10."`, `"192.168."`, `"172."`. -/
def isPrivateIP (ip : Str) : Bool :=
  ("10.".data).isPrefixOf ip || ("192.168.".data).isPrefixOf ip || ("172.".data).isPrefixOf ip

/-- The `for _, ip := range IPs` loop of reconcileNormal: the first address
whose prefix is not private, or `""` when every address is private. -/
def lbIPLoop : List Str → Str
  | [] => []
  | ip :: rest => if isPrivateIP ip then lbIPLoop rest else ip

/-- Fallback after the loop: `if lbIP == "" && len(IPs) > 0 { lbIP = IPs[0] }`. -/
def chooseLbIP (ips : List Str) : Str :=
  let fromLoop := lbIPLoop ips
  if fromLoop = [] ∧ ips.length > 0 then ips.headD [] else fromLoop

/-- Status ingress IP written by reconcileNormal for a fetched instance:
`none` when no write happens (empty address list, or the selected address
is empty). -/
def statusIngressIP (ips : List Str) : Option Str :=
  if ips.length > 0 then
    (let ip := chooseLbIP ips
     if ip ≠ [] then some ip else none)
  else none

/-- pkg/controller `reconcileNormal`: extract parameters, look the load
balancer up, create it when absent or update it when present, re-fetch,
and write the selected address to the Service status. Returns the
ctrl.Result, the returned error, and the log of calls issued. -/
def reconcileNormal (env : NormalEnv) (svc : Service) : GoResult × Option Str × List Action :=
  match extractLoadBalancerParams svc with
  | (_, some e) => (⟨false, 0⟩, some e, [])
  | (_params, none) =>
    match env.getLB1 with
    | .error e => (⟨false, 0⟩, some e, [.getLB])
    | .ok existingLB =>
      match
        (match existingLB with
         | none =>
           (match env.createResp with
            | .error e => (some e, [Action.getLB, Action.createLB])
            | .ok _ => (none, [Action.getLB, Action.createLB]))
         | some _ =>
           (match env.updateResp with
            | .error e => (some e, [Action.getLB, Action.updateLB])
            | .ok _ => (none, [Action.getLB, Action.updateLB]))) with
      | (some e, log) => (⟨false, 0⟩, some e, log)
      | (none, log) =>
        match env.getLB2 with
        | .error e => (⟨false, 0⟩, some e, log ++ [.getLB])
        | .ok _ =>
          match env.getInst with
          | .error e => (⟨false, 0⟩, some e, log ++ [.getLB, .getInstance])
          | .ok instOpt =>
            match instOpt with
            | some inst =>
              (match statusIngressIP inst.IPs with
               | some ip =>
                 (match env.statusResp with
                  | .error e =>
                    (⟨false, 0⟩, some e, log ++ [.getLB, .getInstance, .statusWrite ip])
                  | .ok _ =>
                    (⟨false, 0⟩, none, log ++ [.getLB, .getInstance, .statusWrite ip]))
               | none => (⟨false, 0⟩, none, log ++ [.getLB, .getInstance]))
            | none => (⟨false, 0⟩, none, log ++ [.getLB, .getInstance])

/-- pkg/controller `reconcileDelete`: one DeleteLoadBalancer call; its error
is returned as-is. -/
def reconcileDelete (delResp : Except Str Unit) : GoResult × Option Str × List Action :=
  match delResp with
  | .error e => (⟨false, 0⟩, some e, [.deleteLB])
  | .ok _ => (⟨false, 0⟩, none, [.deleteLB])

/-- Outcome of the controller-runtime client Get for the Service. -/
inductive FetchResp where
  | ok (svc : Service)
  | notFound
  | err (e : Str)

/-- pkg/controller `Reconcile`: fetch the Service (not-found is success),
ignore non-LoadBalancer types, branch on the deletion timestamp. -/
def Reconcile (fr : FetchResp) (env : NormalEnv) (delResp : Except Str Unit) :
    GoResult × Option Str × List Action :=
  match fr with
  | .notFound => (⟨false, 0⟩, none, [])
  | .err e => (⟨false, 0⟩, some e, [])
  | .ok svc =>
    if svc.SvcType = "LoadBalancer".data then
      if svc.DeletionMarker then reconcileDelete delResp
      else reconcileNormal env svc
    else (⟨false, 0⟩, none, [])

/-- Value of a `map[string]interface{}` metadata entry: a string or some
other dynamic type (type assertions to string fail on the latter). -/
inductive MetaVal where
  | str (s : Str)
  | other
deriving DecidableEq

/-- Triton compute instance as the client sees it. -/
structure Inst where
  ID : Str
  Name : Str
  State : Str
  Metadata : List (Str × MetaVal)
  IPs : List Str
deriving DecidableEq

/-- Calls the Triton client issues against the compute API. -/
inductive ClientCall where
  | listInstances
  | createInstance
  | deleteInstance
  | getInstance
  | updateMetadata
deriving DecidableEq

deriving instance DecidableEq for Except

/-- Result of one client operation: the Go return value, the compute-API
calls issued in order, and the total seconds spent in `time.Sleep`. -/
structure ClientOut (α : Type) where
  res : Except Str α
  calls : List ClientCall
  slept : Nat
deriving DecidableEq

/-- Metadata key marking the instance as a load balancer. -/
def lbMetaKey : Str := "cloud.tritoncompute:loadbalancer".data

/-- Metadata key holding the encoded portmap. -/
def portmapMetaKey : Str := "cloud.tritoncompute:portmap".data

/-- Metadata key holding the maximum backend count. -/
def maxRsMetaKey : Str := "cloud.tritoncompute:max_rs".data

/-- Metadata key holding the certificate subject. -/
def certMetaKey : Str := "cloud.tritoncompute:certificate_name".data

/-- Metadata key holding the metrics ACL. -/
def aclMetaKey : Str := "cloud.tritoncompute:metrics_acl".data

/-- Metadata document built by `CreateLoadBalancer` and `UpdateLoadBalancer`:
the marker, the encoded portmap, and the optional scalar keys (`max_rs`
only when positive, certificate only when non-empty, ACL only when
non-empty, comma-joined). -/
def buildLBMetadata (params : LoadBalancerParams) : List (Str × MetaVal) :=
  [(lbMetaKey, MetaVal.str "true".data),
   (portmapMetaKey, MetaVal.str (encodePortMap params.PortMappings))]
  ++ (if params.MaxBackends > 0 then [(maxRsMetaKey, MetaVal.str (itoa params.MaxBackends))] else [])
  ++ (if params.CertificateName ≠ [] then [(certMetaKey, MetaVal.str params.CertificateName)] else [])
  ++ (if params.MetricsACL ≠ [] then [(aclMetaKey, MetaVal.str (joinComma params.MetricsACL))] else [])

/-- Timeout resolution shared by create and delete: 300 seconds unless the
environment variable holds a positive integer. -/
def resolveTimeout (envVar : Str) : Int :=
  if envVar = [] then 300
  else
    match atoi? envVar with
    | some v => if v > 0 then v else 300
    | none => 300

/-- Iteration bound of the 10-second polling loops:
`maxIterations := timeoutSeconds / 10; if maxIterations < 1 { maxIterations = 1 }`. -/
def goMaxIter (t : Int) : Nat :=
  let m := t.toNat / 10
  if m < 1 then 1 else m

/-- Environment of a CreateLoadBalancer run: the create response as a
function of the submitted metadata, the per-iteration Get responses,
context cancellation per iteration, and `TRITON_PROVISION_TIMEOUT`. -/
structure CreateEnv where
  createResp : List (Str × MetaVal) → Except Str Inst
  get : Nat → Except Str Inst
  cancelled : Nat → Bool
  provisionTimeoutEnv : Str

/-- Timeout error of the create polling loop (carries only the duration). -/
def createTimeoutMsg (t : Int) : Str :=
  "timed out waiting for load balancer to provision after ".data ++ itoa t ++ " seconds".data

/-- Provisioning poll of `CreateLoadBalancer`: each iteration checks
cancellation, re-fetches the instance, succeeds on state `"running"`, and
otherwise sleeps 10 seconds; fuel is the iteration bound. -/
def createWaitLoop (env : CreateEnv) (t : Int) : Nat → Nat → ClientOut Unit
  | 0, _ => ⟨.error (createTimeoutMsg t), [], 0⟩
  | fuel + 1, i =>
    if env.cancelled i then
      ⟨.error "context cancelled while waiting for load balancer to provision".data, [], 0⟩
    else
      match env.get i with
      | .error e => ⟨.error ("error checking instance status: ".data ++ e), [.getInstance], 0⟩
      | .ok cur =>
        if cur.State = "running".data then ⟨.ok (), [.getInstance], 0⟩
        else
          let rest := createWaitLoop env t fuel (i + 1)
          ⟨rest.res, .getInstance :: rest.calls, rest.slept + 10⟩

/-- pkg/triton `CreateLoadBalancer`: build the metadata, submit the create,
then poll until running or the bound is exceeded. -/
def CreateLoadBalancer (env : CreateEnv) (params : LoadBalancerParams) : ClientOut Unit :=
  match env.createResp (buildLBMetadata params) with
  | .error e => ⟨.error e, [.createInstance], 0⟩
  | .ok _ =>
    let t := resolveTimeout env.provisionTimeoutEnv
    let out := createWaitLoop env t (goMaxIter t) 0
    ⟨out.res, .createInstance :: out.calls, out.slept⟩

/-- Environment of a DeleteLoadBalancer run: list responses per queried
name and call index (index 0 is the existence check), the delete response
per instance ID, cancellation, and `TRITON_DELETE_TIMEOUT`. -/
structure DeleteEnv where
  list : Str → Nat → Except Str (List Inst)
  deleteResp : Str → Except Str Unit
  cancelled : Nat → Bool
  deleteTimeoutEnv : Str

/-- Timeout error of the delete polling loop (carries the name and the
duration). -/
def deleteTimeoutMsg (name : Str) (t : Int) : Str :=
  "timed out waiting for load balancer ".data ++ name ++
    (" to be deleted after ".data ++ itoa t ++ " seconds".data)

/-- Deletion poll of `DeleteLoadBalancer`: each iteration checks
cancellation, re-lists by name and ownership tags, succeeds on an empty
listing, and otherwise sleeps 10 seconds. -/
def deleteWaitLoop (env : DeleteEnv) (name : Str) (t : Int) : Nat → Nat → ClientOut Unit
  | 0, _ => ⟨.error (deleteTimeoutMsg name t), [], 0⟩
  | fuel + 1, i =>
    if env.cancelled i then
      ⟨.error "context cancelled while waiting for load balancer to be deleted".data, [], 0⟩
    else
      match env.list name (i + 1) with
      | .error e => ⟨.error ("failed to check if instance was deleted: ".data ++ e), [.listInstances], 0⟩
      | .ok [] => ⟨.ok (), [.listInstances], 0⟩
      | .ok (_ :: _) =>
        let rest := deleteWaitLoop env name t fuel (i + 1)
        ⟨rest.res, .listInstances :: rest.calls, rest.slept + 10⟩

/-- pkg/triton `DeleteLoadBalancer`: reject an empty name, list by name and
ownership tags, succeed when nothing is found, otherwise delete the first
hit and poll until it no longer lists. -/
def DeleteLoadBalancer (env : DeleteEnv) (name : Str) : ClientOut Unit :=
  if name = [] then ⟨.error "load balancer name cannot be empty".data, [], 0⟩
  else
    match env.list name 0 with
    | .error e => ⟨.error ("failed to list instances: ".data ++ e), [.listInstances], 0⟩
    | .ok [] => ⟨.ok (), [.listInstances], 0⟩
    | .ok (inst :: _) =>
      match env.deleteResp inst.ID with
      | .error e =>
        ⟨.error ("failed to delete instance ".data ++ (inst.ID ++ (": ".data ++ e))),
         [.listInstances, .deleteInstance], 0⟩
      | .ok _ =>
        let t := resolveTimeout env.deleteTimeoutEnv
        let out := deleteWaitLoop env name t (goMaxIter t) 0
        ⟨out.res, .listInstances :: .deleteInstance :: out.calls, out.slept⟩

/-- Environment of an UpdateLoadBalancer run: the list response per queried
name, and the metadata-update response per instance ID and document. -/
structure UpdateEnv where
  list : Str → Except Str (List Inst)
  updateResp : Str → List (Str × MetaVal) → Except Str Unit

/-- pkg/triton `UpdateLoadBalancer`: list by name and ownership tags, fail
with "not found" on an empty listing, otherwise rewrite the metadata of
the first hit. -/
def UpdateLoadBalancer (env : UpdateEnv) (name : Str) (params : LoadBalancerParams) :
    Except Str Unit × List ClientCall :=
  match env.list name with
  | .error e => (.error e, [.listInstances])
  | .ok [] => (.error ("load balancer ".data ++ (name ++ " not found".data)), [.listInstances])
  | .ok (inst :: _) =>
    match env.updateResp inst.ID (buildLBMetadata params) with
    | .error e => (.error e, [.listInstances, .updateMetadata])
    | .ok _ => (.ok (), [.listInstances, .updateMetadata])

/-- Configuration read back from instance metadata by `GetLoadBalancer`,
with failed string type assertions treated as absent keys. -/
def paramsFromInstance (name : Str) (inst : Inst) : LoadBalancerParams :=
  { Name := name
    PortMappings :=
      match inst.Metadata.lookup portmapMetaKey with
      | some (.str s) => parsePortMap s
      | _ => []
    MaxBackends :=
      match inst.Metadata.lookup maxRsMetaKey with
      | some (.str s) => (match atoi? s with | some v => v | none => 0)
      | _ => 0
    CertificateName :=
      match inst.Metadata.lookup certMetaKey with
      | some (.str s) => s
      | _ => []
    MetricsACL :=
      match inst.Metadata.lookup aclMetaKey with
      | some (.str s) => fieldsAcl s
      | _ => [] }

/-- Environment of a GetLoadBalancer run: the list response per queried
name and the instance Get response per ID. -/
structure GetEnv where
  list : Str → Except Str (List Inst)
  get : Str → Except Str Inst

/-- pkg/triton `GetLoadBalancer`: list by name and ownership tags, return
`(nil, nil)` on an empty listing, otherwise fetch the first hit and decode
its metadata. -/
def GetLoadBalancer (env : GetEnv) (name : Str) :
    Except Str (Option LoadBalancerParams) × List ClientCall :=
  match env.list name with
  | .error e => (.error e, [.listInstances])
  | .ok [] => (.ok none, [.listInstances])
  | .ok (inst :: _) =>
    match env.get inst.ID with
    | .error e => (.error e, [.listInstances, .getInstance])
    | .ok full => (.ok (some (paramsFromInstance name full)), [.listInstances, .getInstance])

/-- Address the claim text for the status update selects, stated from the
specification's words for comparison with the code: the first address
without a private prefix, else the first address, nothing for an empty
list. -/
def claimSelectIP (ips : List Str) : Option Str :=
  match ips.find? (fun ip => !(isPrivateIP ip)) with
  | some ip => some ip
  | none => ips.head?

theorem splitSep_append (t r : Str) (h : ∀ c ∈ t, c ≠ ':') :
    splitSep (t ++ ':' :: '/' :: '/' :: r) = some (t, r) := by
  induction t with
  | nil => simp [splitSep]
  | cons c t ih =>
    have hc : c ≠ ':' := h c (by simp)
    rw [List.cons_append, splitSep]
    rw [if_neg (by simp [hc])]
    rw [ih (fun x hx => h x (by simp [hx]))]

theorem splitOnChar_no_sep (sep : Char) (a : Str) (h : ∀ c ∈ a, c ≠ sep) :
    splitOnChar sep a = [a] := by
  induction a with
  | nil => rfl
  | cons c a ih =>
    rw [splitOnChar, if_neg (h c (by simp)), ih (fun x hx => h x (by simp [hx]))]

theorem splitOnChar_append (sep : Char) (a r : Str) (h : ∀ c ∈ a, c ≠ sep) :
    splitOnChar sep (a ++ sep :: r) = a :: splitOnChar sep r := by
  induction a with
  | nil => simp [splitOnChar]
  | cons c a ih =>
    rw [List.cons_append, splitOnChar, if_neg (h c (by simp)),
      ih (fun x hx => h x (by simp [hx]))]

theorem splitOnChar_joinComma (es : List Str) (hne : es ≠ [])
    (h : ∀ e ∈ es, ∀ c ∈ e, c ≠ ',') :
    splitOnChar ',' (joinComma es) = es := by
  induction es with
  | nil => exact absurd rfl hne
  | cons e es ih =>
    cases es with
    | nil => rw [joinComma]; exact splitOnChar_no_sep ',' e (h e (by simp))
    | cons e2 es2 =>
      rw [joinComma]
      rw [splitOnChar_append ',' e _ (h e (by simp))]
      rw [ih (by simp) (fun x hx => h x (by simp [hx]))]

theorem isPrefixOf_append_self (p r : Str) : p.isPrefixOf (p ++ r) = true := by
  induction p with
  | nil => simp [List.isPrefixOf]
  | cons c p ih => simp [List.isPrefixOf, ih]

theorem containsSeq_append (p a b : Str) : containsSeq p (a ++ p ++ b) = true := by
  induction a with
  | nil =>
    cases p with
    | nil =>
      cases b with
      | nil => rfl
      | cons c b => simp [containsSeq, List.isPrefixOf]
    | cons q qs =>
      rw [List.nil_append, List.cons_append, containsSeq]
      rw [← List.cons_append, isPrefixOf_append_self]
      rfl
  | cons c a ih =>
    rw [List.cons_append, List.cons_append, containsSeq, ih, Bool.or_true]

theorem digitVal?_digitChar (d : Nat) (h : d < 10) : digitVal? (digitChar d) = some d := by
  interval_cases d <;> decide

theorem digitChar_range (d : Nat) (h : d < 10) : '0' ≤ digitChar d ∧ digitChar d ≤ '9' := by
  interval_cases d <;> decide

theorem natDigitsF_congr (f1 : Nat) : ∀ (f2 n : Nat), n < f1 → n < f2 →
    natDigitsF f1 n = natDigitsF f2 n := by
  induction f1 with
  | zero => intro f2 n h1 _; omega
  | succ f ih =>
    intro f2 n h1 h2
    cases f2 with
    | zero => omega
    | succ f2' =>
      rw [natDigitsF, natDigitsF]
      by_cases hn : n < 10
      · simp [hn]
      · have hdiv : n / 10 < n := Nat.div_lt_self (by omega) (by omega)
        simp only [if_neg hn]
        rw [ih f2' (n / 10) (by omega) (by omega)]

theorem natDigits_eq (n : Nat) :
    natDigits n = if n < 10 then [digitChar n] else natDigits (n / 10) ++ [digitChar (n % 10)] := by
  rw [natDigits, natDigitsF]
  by_cases hn : n < 10
  · simp [hn]
  · have hdiv : n / 10 < n := Nat.div_lt_self (by omega) (by omega)
    simp only [if_neg hn]
    rw [natDigitsF_congr n (n / 10 + 1) (n / 10) (by omega) (by omega)]
    rfl

theorem natDigits_ne_nil (n : Nat) : natDigits n ≠ [] := by
  rw [natDigits_eq]
  by_cases hn : n < 10 <;> simp [hn]

theorem mem_natDigits (n : Nat) : ∀ c ∈ natDigits n, ∃ d, d < 10 ∧ c = digitChar d := by
  induction n using Nat.strong_induction_on with
  | _ n ih =>
    intro c hc
    rw [natDigits_eq] at hc
    by_cases hn : n < 10
    · rw [if_pos hn] at hc
      simp at hc
      exact ⟨n, hn, hc⟩
    · rw [if_neg hn] at hc
      have hdiv : n / 10 < n := Nat.div_lt_self (by omega) (by omega)
      rcases List.mem_append.mp hc with hc | hc
      · exact ih (n / 10) hdiv c hc
      · simp at hc
        exact ⟨n % 10, Nat.mod_lt _ (by omega), hc⟩

theorem natDigits_chars (n : Nat) (c : Char) (hc : c ∈ natDigits n) :
    '0' ≤ c ∧ c ≤ '9' := by
  obtain ⟨d, hd, rfl⟩ := mem_natDigits n c hc
  exact digitChar_range d hd

theorem digit_ne_comma {c : Char} (h : '0' ≤ c ∧ c ≤ '9') : c ≠ ',' := by
  rintro rfl; revert h; decide

theorem digit_ne_colon {c : Char} (h : '0' ≤ c ∧ c ≤ '9') : c ≠ ':' := by
  rintro rfl; revert h; decide

theorem digit_ne_minus {c : Char} (h : '0' ≤ c ∧ c ≤ '9') : c ≠ '-' := by
  rintro rfl; revert h; decide

theorem digit_ne_plus {c : Char} (h : '0' ≤ c ∧ c ≤ '9') : c ≠ '+' := by
  rintro rfl; revert h; decide

theorem itoa_chars (v : Int) (c : Char) (hc : c ∈ itoa v) :
    c = '-' ∨ ('0' ≤ c ∧ c ≤ '9') := by
  rw [itoa] at hc
  by_cases hv : v < 0
  · rw [if_pos hv] at hc
    rcases List.mem_cons.mp hc with rfl | hc
    · exact Or.inl rfl
    · exact Or.inr (natDigits_chars _ c hc)
  · rw [if_neg hv] at hc
    exact Or.inr (natDigits_chars _ c hc)

theorem itoa_ne_comma (v : Int) (c : Char) (hc : c ∈ itoa v) : c ≠ ',' := by
  rcases itoa_chars v c hc with rfl | h
  · decide
  · exact digit_ne_comma h

theorem itoa_ne_colon (v : Int) (c : Char) (hc : c ∈ itoa v) : c ≠ ':' := by
  rcases itoa_chars v c hc with rfl | h
  · decide
  · exact digit_ne_colon h

theorem parseDigitsAux_app (acc : Nat) (xs ys : Str) :
    parseDigitsAux acc (xs ++ ys) =
      match parseDigitsAux acc xs with
      | some a => parseDigitsAux a ys
      | none => none := by
  induction xs generalizing acc with
  | nil => rfl
  | cons c xs ih =>
    rw [List.cons_append, parseDigitsAux, parseDigitsAux]
    cases digitVal? c with
    | none => rfl
    | some d => exact ih (10 * acc + d)

theorem parseDigitsAux_natDigits (n : Nat) : ∀ acc,
    parseDigitsAux acc (natDigits n) = some (acc * 10 ^ (natDigits n).length + n) := by
  induction n using Nat.strong_induction_on with
  | _ n ih =>
    intro acc
    rw [natDigits_eq]
    by_cases hn : n < 10
    · rw [if_pos hn]
      simp only [parseDigitsAux, digitVal?_digitChar n hn]
      simp only [List.length_cons, List.length_nil]
      congr 1
      ring
    · rw [if_neg hn]
      have hdiv : n / 10 < n := Nat.div_lt_self (by omega) (by omega)
      rw [parseDigitsAux_app]
      rw [ih (n / 10) hdiv acc]
      simp only [parseDigitsAux, digitVal?_digitChar (n % 10) (Nat.mod_lt _ (by omega))]
      have hdm : 10 * (n / 10) + n % 10 = n := Nat.div_add_mod n 10
      simp only [List.length_append, List.length_cons, List.length_nil]
      congr 1
      calc 10 * (acc * 10 ^ (natDigits (n / 10)).length + n / 10) + n % 10
          = acc * (10 ^ (natDigits (n / 10)).length * 10) + (10 * (n / 10) + n % 10) := by ring
        _ = acc * 10 ^ ((natDigits (n / 10)).length + (0 + 1)) + n := by
            rw [hdm]; rw [Nat.zero_add, pow_succ]

theorem parseDec?_itoa (v : Int) : parseDec? (itoa v) = some v := by
  rw [itoa]
  by_cases hv : v < 0
  · rw [if_pos hv]
    have hz : ((v.natAbs : Nat) : Int) = -v := by omega
    rw [parseDec?]
    rw [if_pos rfl, if_neg (natDigits_ne_nil v.natAbs)]
    rw [parseDigitsAux_natDigits v.natAbs 0]
    simp only [Nat.zero_mul, Nat.zero_add, hz, neg_neg]
  · rw [if_neg hv]
    have hz : ((v.natAbs : Nat) : Int) = v := by omega
    rcases hd : natDigits v.natAbs with _ | ⟨c, cs⟩
    · exact absurd hd (natDigits_ne_nil _)
    · have hcr : '0' ≤ c ∧ c ≤ '9' := natDigits_chars v.natAbs c (by rw [hd]; simp)
      rw [parseDec?]
      rw [if_neg (digit_ne_minus hcr), if_neg (digit_ne_plus hcr)]
      rw [← hd, parseDigitsAux_natDigits v.natAbs 0]
      simp only [Nat.zero_mul, Nat.zero_add, hz]

theorem atoi?_itoa (v : Int) (h1 : int64Min ≤ v) (h2 : v ≤ int64Max) :
    atoi? (itoa v) = some v := by
  simp only [atoi?, parseDec?_itoa]
  rw [if_pos ⟨h1, h2⟩]

theorem atoiVal_itoa (v : Int) (h1 : int64Min ≤ v) (h2 : v ≤ int64Max) :
    atoiVal (itoa v) = v := by
  simp only [atoiVal, parseDec?_itoa]
  rw [if_neg (by omega), if_neg (by omega)]

theorem encodeEntry_no_comma (m : PortMapping)
    (ht : ∀ c ∈ m.Typ, c ≠ ',') (hb : ∀ c ∈ m.BackendName, c ≠ ',') :
    ∀ c ∈ encodeEntry m, c ≠ ',' := by
  intro c hc
  rw [encodeEntry] at hc
  rcases List.mem_append.mp hc with h | h
  · exact ht c h
  · rcases List.mem_cons.mp h with rfl | h
    · decide
    rcases List.mem_cons.mp h with rfl | h
    · decide
    rcases List.mem_cons.mp h with rfl | h
    · decide
    rcases List.mem_append.mp h with h | h
    · exact itoa_ne_comma _ c h
    · rcases List.mem_cons.mp h with rfl | h
      · decide
      rcases List.mem_append.mp h with h | h
      · exact hb c h
      · by_cases hbp : m.BackendPort > 0
        · rw [if_pos hbp] at h
          rcases List.mem_cons.mp h with rfl | h
          · decide
          · exact itoa_ne_comma _ c h
        · rw [if_neg hbp] at h
          simp at h

theorem parseEntry_encodeEntry (m : PortMapping)
    (ht : ∀ c ∈ m.Typ, c ≠ ':')
    (hbn : ∀ c ∈ m.BackendName, c ≠ ':')
    (hbp0 : 0 ≤ m.BackendPort)
    (hlp1 : int64Min ≤ m.ListenPort) (hlp2 : m.ListenPort ≤ int64Max)
    (hbp2 : m.BackendPort ≤ int64Max) :
    parseEntry (encodeEntry m) = some m := by
  obtain ⟨ty, lp, bn, bp⟩ := m
  simp only at ht hbn hbp0 hlp1 hlp2 hbp2
  rw [encodeEntry]
  by_cases hbp : bp > 0
  · simp only [if_pos hbp]
    have hsep := splitSep_append ty
      (itoa lp ++ (':' :: (bn ++ (':' :: itoa bp)))) ht
    have hsp1 := splitOnChar_append ':' (itoa lp) (bn ++ (':' :: itoa bp))
      (fun c hc => itoa_ne_colon lp c hc)
    have hsp2 := splitOnChar_append ':' bn (itoa bp) hbn
    have hsp3 := splitOnChar_no_sep ':' (itoa bp) (fun c hc => itoa_ne_colon bp c hc)
    rw [parseEntry, hsep]
    simp only []
    rw [hsp1, hsp2, hsp3]
    simp only [atoi?_itoa lp hlp1 hlp2]
    simp only [atoiVal_itoa bp (by unfold int64Min; omega) hbp2]
  · have hbz : bp = 0 := le_antisymm (not_lt.mp hbp) hbp0
    simp only [if_neg hbp, List.append_nil]
    have hsep := splitSep_append ty (itoa lp ++ (':' :: bn)) ht
    have hsp1 := splitOnChar_append ':' (itoa lp) bn (fun c hc => itoa_ne_colon lp c hc)
    have hsp2 := splitOnChar_no_sep ':' bn hbn
    rw [parseEntry, hsep]
    simp only []
    rw [hsp1, hsp2]
    simp only [atoi?_itoa lp hlp1 hlp2, hbz]

theorem filterMap_parseEntry_encode (l : List PortMapping)
    (H : ∀ m ∈ l, parseEntry (encodeEntry m) = some m) :
    List.filterMap parseEntry (l.map encodeEntry) = l := by
  induction l with
  | nil => rfl
  | cons m l ih =>
    rw [List.map_cons, List.filterMap_cons, H m (by simp)]
    rw [ih (fun x hx => H x (by simp [hx]))]

/-- Side conditions under which a PortMapping survives the lossy portmap
format: the type and backend name carry no delimiter characters, and the
ports lie in the range Go's `int` type already guarantees. -/
def LosslessMapping (m : PortMapping) : Prop :=
  (∀ c ∈ m.Typ, c ≠ ',' ∧ c ≠ ':') ∧
  (∀ c ∈ m.BackendName, c ≠ ',' ∧ c ≠ ':') ∧
  0 ≤ m.BackendPort ∧
  int64Min ≤ m.ListenPort ∧ m.ListenPort ≤ int64Max ∧ m.BackendPort ≤ int64Max

instance (m : PortMapping) : Decidable (LosslessMapping m) := by
  unfold LosslessMapping
  infer_instance

theorem lbIPLoop_eq_find (ips : List Str) :
    lbIPLoop ips = ((ips.find? (fun ip => !(isPrivateIP ip))).getD []) := by
  induction ips with
  | nil => rfl
  | cons ip rest ih =>
    rw [lbIPLoop, List.find?]
    by_cases h : isPrivateIP ip
    · simp [h, ih]
    · simp [h]

theorem containsSeq_middle (p s a b : Str) (hs : s = a ++ (p ++ b)) :
    containsSeq p s = true := by
  subst hs
  have h := containsSeq_append p a b
  simpa [List.append_assoc] using h

theorem createWaitLoop_timeout (env : CreateEnv) (t : Int)
    (hc : ∀ i, env.cancelled i = false)
    (hg : ∀ i, ∃ inst, env.get i = .ok inst ∧ inst.State ≠ "running".data) :
    ∀ fuel i, createWaitLoop env t fuel i =
      ⟨.error (createTimeoutMsg t), List.replicate fuel .getInstance, 10 * fuel⟩ := by
  intro fuel
  induction fuel with
  | zero => intro i; rfl
  | succ fuel ih =>
    intro i
    obtain ⟨inst, hi, hs⟩ := hg i
    rw [createWaitLoop, hc i]
    simp only [Bool.false_eq_true, if_false, hi]
    rw [if_neg hs]
    rw [ih (i + 1)]
    simp [List.replicate_succ]
    omega

theorem deleteWaitLoop_timeout (env : DeleteEnv) (name : Str) (t : Int)
    (hc : ∀ k, env.cancelled k = false)
    (hl : ∀ k, ∃ x xs, env.list name (k + 1) = .ok (x :: xs)) :
    ∀ fuel i, deleteWaitLoop env name t fuel i =
      ⟨.error (deleteTimeoutMsg name t), List.replicate fuel .listInstances, 10 * fuel⟩ := by
  intro fuel
  induction fuel with
  | zero => intro i; rfl
  | succ fuel ih =>
    intro i
    obtain ⟨x, xs, hi⟩ := hl i
    rw [deleteWaitLoop, hc i]
    simp only [Bool.false_eq_true, if_false, hi]
    rw [ih (i + 1)]
    simp [List.replicate_succ]
    omega

/-- Claim C1 (code_bug evidence). The controller's `reconcileNormal`, at a
reconcile pass where the load balancer is absent and `CreateLoadBalancer`
fails with the transient message "connection timeout", returns
`ctrl.Result{}` together with that error: the error is propagated unchanged
and no 30-second requeue-after is requested, although the message contains
the transient marker "timeout". -/
theorem c1_transient_error_propagated :
    reconcileNormal
        ⟨.ok none, .error "connection timeout".data, .ok (), .ok none, .ok none, .ok ()⟩
        ⟨"test-service".data, "LoadBalancer".data, [⟨[], 80, 8080⟩], [], false⟩ =
      (⟨false, 0⟩, some "connection timeout".data, [.getLB, .createLB]) ∧
    containsSeq "timeout".data "connection timeout".data = true := by
  decide

/-- Claim C2 (counterexample). Decoding the encoder's output does not
reproduce every PortMapping list: a backend name containing a comma is
truncated at the comma and the spilled fragment is dropped. -/
theorem c2_roundtrip_counterexample :
    parsePortMap (encodePortMap
        [{ Typ := "tcp".data, ListenPort := 80, BackendName := "a,b".data, BackendPort := 0 }]) =
      [{ Typ := "tcp".data, ListenPort := 80, BackendName := "a".data, BackendPort := 0 }] ∧
    parsePortMap (encodePortMap
        [{ Typ := "tcp".data, ListenPort := 80, BackendName := "a,b".data, BackendPort := 0 }]) ≠
      [{ Typ := "tcp".data, ListenPort := 80, BackendName := "a,b".data, BackendPort := 0 }] := by
  decide

/-- Claim C2 (amended). For every PortMapping list whose entries are free
of the format's delimiter characters (no ',' or ':' in the type or backend
name), have a non-negative backend port, and carry ports in the 64-bit
range Go's `int` guarantees, decoding the encoder's output reproduces the
list exactly, element for element and in order. -/
theorem c2_roundtrip_amended (l : List PortMapping) (H : ∀ m ∈ l, LosslessMapping m) :
    parsePortMap (encodePortMap l) = l := by
  cases l with
  | nil => rfl
  | cons m l =>
    have hnc : ∀ e ∈ (m :: l).map encodeEntry, ∀ c ∈ e, c ≠ ',' := by
      intro e he c hc
      obtain ⟨x, hx, rfl⟩ := List.mem_map.mp he
      obtain ⟨h1, h2, _⟩ := H x hx
      exact encodeEntry_no_comma x (fun d hd => (h1 d hd).1) (fun d hd => (h2 d hd).1) c hc
    rw [parsePortMap, encodePortMap, splitOnChar_joinComma _ (by simp) hnc]
    apply filterMap_parseEntry_encode
    intro x hx
    obtain ⟨h1, h2, h3, h4, h5, h6⟩ := H x hx
    exact parseEntry_encodeEntry x (fun d hd => (h1 d hd).2) (fun d hd => (h2 d hd).2) h3 h4 h5 h6

/-- Claim C2 witness: the amended round-trip evaluated on a concrete
two-entry list. -/
theorem c2_roundtrip_amended_witness :
    (∀ m ∈ [({ Typ := "http".data, ListenPort := 80, BackendName := "svc".data,
               BackendPort := 8080 } : PortMapping),
            { Typ := "tcp".data, ListenPort := 3306, BackendName := "db".data,
              BackendPort := 0 }], LosslessMapping m) ∧
    parsePortMap (encodePortMap
        [{ Typ := "http".data, ListenPort := 80, BackendName := "svc".data, BackendPort := 8080 },
         { Typ := "tcp".data, ListenPort := 3306, BackendName := "db".data, BackendPort := 0 }]) =
      [{ Typ := "http".data, ListenPort := 80, BackendName := "svc".data, BackendPort := 8080 },
       { Typ := "tcp".data, ListenPort := 3306, BackendName := "db".data, BackendPort := 0 }] :=
  ⟨by decide, c2_roundtrip_amended _ (by decide)⟩

/-- Claim C3. `parsePortMap` splits on commas; per entry: no `"://"`
separator drops the entry, fewer than two colon-parts in the remainder
drops the entry, a listen port rejected by `Atoi` drops the entry, and a
syntactically non-integer backend port keeps the entry with BackendPort 0;
`"bad-entry,http://80:svc"` decodes to exactly one mapping and
`"tcp://notanumber:svc"` decodes to zero. -/
theorem c3_parse_portmap_policy :
    (∀ s, parsePortMap s = (splitOnChar ',' s).filterMap parseEntry) ∧
    (∀ e, splitSep e = none → parseEntry e = none) ∧
    (∀ e t rest, splitSep e = some (t, rest) → (splitOnChar ':' rest).length < 2 →
        parseEntry e = none) ∧
    (∀ e t rest p0 p1 ps, splitSep e = some (t, rest) →
        splitOnChar ':' rest = p0 :: p1 :: ps → atoi? p0 = none → parseEntry e = none) ∧
    (∀ e t rest p0 p1 p2 ps lp, splitSep e = some (t, rest) →
        splitOnChar ':' rest = p0 :: p1 :: p2 :: ps → atoi? p0 = some lp →
        parseDec? p2 = none →
        parseEntry e = some { Typ := t, ListenPort := lp, BackendName := p1, BackendPort := 0 }) ∧
    parsePortMap "bad-entry,http://80:svc".data =
      [{ Typ := "http".data, ListenPort := 80, BackendName := "svc".data, BackendPort := 0 }] ∧
    parsePortMap "tcp://notanumber:svc".data = [] := by
  refine ⟨fun s => rfl, ?_, ?_, ?_, ?_, by decide, by decide⟩
  · intro e h
    rw [parseEntry, h]
  · intro e t rest h1 h2
    rw [parseEntry, h1]
    dsimp only
    rcases hsp : splitOnChar ':' rest with _ | ⟨p0, _ | ⟨p1, tl⟩⟩
    · rfl
    · rfl
    · rw [hsp] at h2
      simp only [List.length_cons] at h2
      exact absurd h2 (by omega)
  · intro e t rest p0 p1 ps h1 hsp hat
    rw [parseEntry, h1]
    dsimp only
    rw [hsp]
    dsimp only
    rw [hat]
  · intro e t rest p0 p1 p2 ps lp h1 hsp hat hp2
    rw [parseEntry, h1]
    dsimp only
    rw [hsp]
    dsimp only
    rw [hat]
    dsimp only
    simp only [atoiVal, hp2]

/-- Claim C3 witness: the per-entry rules evaluated at concrete entries. -/
theorem c3_parse_portmap_policy_witness :
    parseEntry "bad-entry".data = none ∧
    parseEntry "tcp://notanumber:svc".data = none ∧
    parseEntry "http://80:svc:zzz".data =
      some { Typ := "http".data, ListenPort := 80, BackendName := "svc".data, BackendPort := 0 } :=
  ⟨c3_parse_portmap_policy.2.1 "bad-entry".data (by decide),
   c3_parse_portmap_policy.2.2.2.1 "tcp://notanumber:svc".data "tcp".data
     "notanumber:svc".data "notanumber".data "svc".data [] (by decide) (by decide) (by decide),
   c3_parse_portmap_policy.2.2.2.2.1 "http://80:svc:zzz".data "http".data
     "80:svc:zzz".data "80".data "svc".data "zzz".data [] 80
     (by decide) (by decide) (by decide) (by decide)⟩

/-- Claim C4. `extractLoadBalancerParams` classifies each service port
independently through `portTypeOf`: name "http" or port 80 gives "http";
otherwise name "https" or port 443 gives "https"; otherwise "tcp". In
particular `{name:"", port:80}` and `{name:"http", port:9090}` both
classify as http. -/
theorem c4_port_classification :
    (∀ svc : Service, (extractLoadBalancerParams svc).1.PortMappings =
        svc.Ports.map (fun p =>
          { Typ := portTypeOf p.Name p.Port, ListenPort := p.Port,
            BackendName := svc.Name, BackendPort := p.TargetPort })) ∧
    (∀ (name : Str) (port : Int), (name = "http".data ∨ port = 80) →
        portTypeOf name port = "http".data) ∧
    (∀ (name : Str) (port : Int), name ≠ "http".data → port ≠ 80 →
        (name = "https".data ∨ port = 443) → portTypeOf name port = "https".data) ∧
    (∀ (name : Str) (port : Int), name ≠ "http".data → port ≠ 80 →
        name ≠ "https".data → port ≠ 443 → portTypeOf name port = "tcp".data) ∧
    portTypeOf [] 80 = "http".data ∧
    portTypeOf "http".data 9090 = "http".data := by
  refine ⟨fun svc => rfl, ?_, ?_, ?_, by decide, by decide⟩
  · intro name port h
    rw [portTypeOf, if_pos h]
  · intro name port h1 h2 h3
    rw [portTypeOf, if_neg (by tauto), if_pos h3]
  · intro name port h1 h2 h3 h4
    rw [portTypeOf, if_neg (by tauto), if_neg (by tauto)]

/-- Claim C4 witness: the classification rules at concrete ports. -/
theorem c4_port_classification_witness :
    portTypeOf "https".data 8443 = "https".data ∧
    portTypeOf "db".data 5432 = "tcp".data :=
  ⟨c4_port_classification.2.2.1 "https".data 8443 (by decide) (by decide) (Or.inl rfl),
   c4_port_classification.2.2.2.1 "db".data 5432 (by decide) (by decide) (by decide) (by decide)⟩

/-- Claim C5. `extractLoadBalancerParams` is total and never returns an
error: its error component is `none` for every Service; a max_rs
annotation rejected by `Atoi` (and an absent one) yields MaxBackends 0,
and an absent certificate annotation yields an empty CertificateName. -/
theorem c5_extract_total :
    (∀ svc : Service, (extractLoadBalancerParams svc).2 = none) ∧
    (∀ (svc : Service) (s : Str), svc.Annots.lookup maxRsKey = some s → atoi? s = none →
        (extractLoadBalancerParams svc).1.MaxBackends = 0) ∧
    (∀ svc : Service, svc.Annots.lookup maxRsKey = none →
        (extractLoadBalancerParams svc).1.MaxBackends = 0) ∧
    (∀ svc : Service, svc.Annots.lookup certKey = none →
        (extractLoadBalancerParams svc).1.CertificateName = []) := by
  refine ⟨fun _ => rfl, ?_, ?_, ?_⟩
  · intro svc s h1 h2
    simp only [extractLoadBalancerParams, h1, h2]
  · intro svc h
    simp only [extractLoadBalancerParams, h]
  · intro svc h
    simp only [extractLoadBalancerParams, h, Option.getD_none]

/-- Claim C5 witness: extraction at a Service with a malformed max_rs
annotation and no certificate annotation. -/
theorem c5_extract_total_witness :
    (extractLoadBalancerParams
        ⟨"s".data, "LoadBalancer".data, [], [(maxRsKey, "abc".data)], false⟩).2 = none ∧
    (extractLoadBalancerParams
        ⟨"s".data, "LoadBalancer".data, [], [(maxRsKey, "abc".data)], false⟩).1.MaxBackends = 0 ∧
    (extractLoadBalancerParams
        ⟨"s".data, "LoadBalancer".data, [], [(maxRsKey, "abc".data)], false⟩).1.CertificateName
      = [] :=
  ⟨c5_extract_total.1 _,
   c5_extract_total.2.1 _ "abc".data (by decide) (by decide),
   c5_extract_total.2.2.2 _ (by decide)⟩

/-- Claim C6 (counterexample). With address list `["10.0.0.1", ""]` the
code writes `"10.0.0.1"`, while the claim's selector (first address with
no private prefix) picks the empty string: the claim fails when an address
is the empty string. -/
theorem c6_address_selection_counterexample :
    statusIngressIP ["10.0.0.1".data, []] = some "10.0.0.1".data ∧
    claimSelectIP ["10.0.0.1".data, []] = some [] ∧
    ("10.0.0.1".data : Str) ≠ [] := by
  decide

/-- Claim C6 (amended). No status write happens for an empty address list,
and for address lists of non-empty addresses the IP written is exactly the
claim's selector: the first address without a private prefix
("10.", "192.168.", "172."), else the first address in order. -/
theorem c6_address_selection_amended :
    statusIngressIP [] = none ∧
    (∀ ips : List Str, (∀ a ∈ ips, a ≠ []) → statusIngressIP ips = claimSelectIP ips) := by
  refine ⟨rfl, ?_⟩
  intro ips h
  cases ips with
  | nil => rfl
  | cons a rest =>
    rcases hf : List.find? (fun ip => !(isPrivateIP ip)) (a :: rest) with _ | ip
    · have hl : lbIPLoop (a :: rest) = [] := by rw [lbIPLoop_eq_find, hf]; rfl
      have ha : a ≠ [] := h a (by simp)
      simp [statusIngressIP, chooseLbIP, claimSelectIP, hf, hl, ha]
    · have hmem : ip ∈ a :: rest := List.mem_of_find?_eq_some hf
      have hip : ip ≠ [] := h ip hmem
      have hl : lbIPLoop (a :: rest) = ip := by rw [lbIPLoop_eq_find, hf]; rfl
      simp [statusIngressIP, chooseLbIP, claimSelectIP, hf, hl, hip]

/-- Claim C6 witness: amended selection at the specification's two example
address lists. -/
theorem c6_address_selection_amended_witness :
    statusIngressIP ["203.0.113.1".data, "10.0.0.1".data] =
      claimSelectIP ["203.0.113.1".data, "10.0.0.1".data] ∧
    statusIngressIP ["10.0.0.1".data] = claimSelectIP ["10.0.0.1".data] :=
  ⟨c6_address_selection_amended.2 _ (by decide),
   c6_address_selection_amended.2 _ (by decide)⟩

/-- Claim C7 (counterexample). For the empty name, `DeleteLoadBalancer`
returns the "name cannot be empty" error without consulting the listing,
even in an environment whose listing is empty for every name: absence is
not reported as success for the empty name. -/
theorem c7_absence_counterexample :
    (DeleteLoadBalancer ⟨fun _ _ => .ok [], fun _ => .ok (), fun _ => false, []⟩ []).res =
      .error "load balancer name cannot be empty".data ∧
    (DeleteLoadBalancer ⟨fun _ _ => .ok [], fun _ => .ok (), fun _ => false, []⟩ []).res ≠
      .ok () := by
  decide

/-- Claim C7 (amended). For every non-empty name whose name-plus-ownership
listing is empty, `DeleteLoadBalancer` succeeds with exactly one listing
call, no delete call and no sleeping; and for every name whose listing is
empty, `GetLoadBalancer` returns `(nil, nil)` with exactly one listing
call. -/
theorem c7_absence_success_amended :
    (∀ (env : DeleteEnv) (name : Str), name ≠ [] → env.list name 0 = .ok [] →
        DeleteLoadBalancer env name = ⟨.ok (), [.listInstances], 0⟩) ∧
    (∀ (env : GetEnv) (name : Str), env.list name = .ok [] →
        GetLoadBalancer env name = (.ok none, [.listInstances])) := by
  constructor
  · intro env name h1 h2
    rw [DeleteLoadBalancer, if_neg h1, h2]
  · intro env name h
    rw [GetLoadBalancer, h]

/-- Claim C7 witness: delete and get at a concrete empty-listing
environment. -/
theorem c7_absence_success_amended_witness :
    DeleteLoadBalancer ⟨fun _ _ => .ok [], fun _ => .ok (), fun _ => false, []⟩ "lb".data =
      ⟨.ok (), [.listInstances], 0⟩ ∧
    GetLoadBalancer ⟨fun _ => .ok [], fun _ => .error []⟩ "lb".data =
      (.ok none, [.listInstances]) :=
  ⟨c7_absence_success_amended.1 _ _ (by decide) rfl,
   c7_absence_success_amended.2 _ _ rfl⟩

/-- Claim C8 (counterexample). A create run that never reaches "running"
times out after the default 300 seconds with an error that does not
contain the resource name: create's timeout error carries the duration
but not the name. -/
theorem c8_poll_timeout_counterexample :
    (CreateLoadBalancer
        ⟨fun _ => .ok ⟨"id".data, "mylb".data, "provisioning".data, [], []⟩,
         fun _ => .ok ⟨"id".data, "mylb".data, "provisioning".data, [], []⟩,
         fun _ => false, []⟩
        ⟨"mylb".data, [], 0, [], []⟩).res =
      .error (createTimeoutMsg 300) ∧
    containsSeq "mylb".data (createTimeoutMsg 300) = false ∧
    containsSeq (itoa 300) (createTimeoutMsg 300) = true := by
  decide

/-- Claim C8 (amended). Both polling loops run `timeout/10` iterations of
10 seconds each, with the timeout defaulting to 300 seconds; exceeding the
bound always yields an error, never silent success; both timeout errors
carry the elapsed duration, and delete's (but not create's) also carries
the resource name. -/
theorem c8_poll_timeout_amended :
    resolveTimeout [] = 300 ∧
    (∀ (env : CreateEnv) (params : LoadBalancerParams) (inst0 : Inst),
        env.createResp (buildLBMetadata params) = .ok inst0 →
        (∀ i, env.cancelled i = false) →
        (∀ i, ∃ inst, env.get i = .ok inst ∧ inst.State ≠ "running".data) →
        CreateLoadBalancer env params =
          ⟨.error (createTimeoutMsg (resolveTimeout env.provisionTimeoutEnv)),
           .createInstance ::
             List.replicate (goMaxIter (resolveTimeout env.provisionTimeoutEnv)) .getInstance,
           10 * goMaxIter (resolveTimeout env.provisionTimeoutEnv)⟩ ∧
        containsSeq (itoa (resolveTimeout env.provisionTimeoutEnv))
          (createTimeoutMsg (resolveTimeout env.provisionTimeoutEnv)) = true) ∧
    (∀ (env : DeleteEnv) (name : Str) (i0 : Inst) (is : List Inst),
        name ≠ [] → env.list name 0 = .ok (i0 :: is) → env.deleteResp i0.ID = .ok () →
        (∀ k, env.cancelled k = false) →
        (∀ k, ∃ x xs, env.list name (k + 1) = .ok (x :: xs)) →
        DeleteLoadBalancer env name =
          ⟨.error (deleteTimeoutMsg name (resolveTimeout env.deleteTimeoutEnv)),
           .listInstances :: .deleteInstance ::
             List.replicate (goMaxIter (resolveTimeout env.deleteTimeoutEnv)) .listInstances,
           10 * goMaxIter (resolveTimeout env.deleteTimeoutEnv)⟩ ∧
        containsSeq name (deleteTimeoutMsg name (resolveTimeout env.deleteTimeoutEnv)) = true ∧
        containsSeq (itoa (resolveTimeout env.deleteTimeoutEnv))
          (deleteTimeoutMsg name (resolveTimeout env.deleteTimeoutEnv)) = true) := by
  refine ⟨rfl, ?_, ?_⟩
  · intro env params inst0 hcr hc hg
    constructor
    · rw [CreateLoadBalancer, hcr]
      simp only []
      rw [createWaitLoop_timeout env _ hc hg _ 0]
    · apply containsSeq_middle _ _
        "timed out waiting for load balancer to provision after ".data " seconds".data
      rw [createTimeoutMsg]
      simp [List.append_assoc]
  · intro env name i0 is h1 h2 h3 hc hl
    refine ⟨?_, ?_, ?_⟩
    · rw [DeleteLoadBalancer, if_neg h1, h2]
      simp only [h3]
      rw [deleteWaitLoop_timeout env name _ hc hl _ 0]
    · apply containsSeq_middle _ _
        "timed out waiting for load balancer ".data
        (" to be deleted after ".data ++ (itoa (resolveTimeout env.deleteTimeoutEnv) ++
          " seconds".data))
      rw [deleteTimeoutMsg]
      simp [List.append_assoc]
    · apply containsSeq_middle _ _
        ("timed out waiting for load balancer ".data ++ (name ++
          (' ' :: 't' :: 'o' :: ' ' :: 'b' :: 'e' :: ' ' :: 'd' :: 'e' :: 'l' :: 'e' :: 't' ::
           'e' :: 'd' :: ' ' :: 'a' :: 'f' :: 't' :: 'e' :: 'r' :: [' '])))
        " seconds".data
      rw [deleteTimeoutMsg]
      simp [List.append_assoc]

/-- Claim C8 witness: the amended timeout behavior at a concrete
environment with the default timeouts. -/
theorem c8_poll_timeout_amended_witness :
    CreateLoadBalancer
        ⟨fun _ => .ok ⟨"id".data, "w".data, "provisioning".data, [], []⟩,
         fun _ => .ok ⟨"id".data, "w".data, "provisioning".data, [], []⟩,
         fun _ => false, []⟩
        ⟨"w".data, [], 0, [], []⟩ =
      ⟨.error (createTimeoutMsg (resolveTimeout [])),
       .createInstance :: List.replicate (goMaxIter (resolveTimeout [])) .getInstance,
       10 * goMaxIter (resolveTimeout [])⟩ ∧
    DeleteLoadBalancer
        ⟨fun _ _ => .ok [⟨"id".data, "w".data, "running".data, [], []⟩],
         fun _ => .ok (), fun _ => false, []⟩ "w".data =
      ⟨.error (deleteTimeoutMsg "w".data (resolveTimeout [])),
       .listInstances :: .deleteInstance ::
         List.replicate (goMaxIter (resolveTimeout [])) .listInstances,
       10 * goMaxIter (resolveTimeout [])⟩ :=
  ⟨(c8_poll_timeout_amended.2.1 _ _ ⟨"id".data, "w".data, "provisioning".data, [], []⟩
      rfl (fun _ => rfl)
      (fun _ => ⟨⟨"id".data, "w".data, "provisioning".data, [], []⟩, rfl, by decide⟩)).1,
   (c8_poll_timeout_amended.2.2 _ _ ⟨"id".data, "w".data, "running".data, [], []⟩ []
      (by decide) rfl rfl (fun _ => rfl)
      (fun _ => ⟨⟨"id".data, "w".data, "running".data, [], []⟩, [], rfl⟩)).1⟩

/-- Claim C9. For every Service whose spec type is not LoadBalancer,
`Reconcile` returns success immediately with no Triton call, no status
write, and an empty action log, whatever the environments hold. -/
theorem c9_type_filter (svc : Service) (env : NormalEnv) (delResp : Except Str Unit)
    (h : svc.SvcType ≠ "LoadBalancer".data) :
    Reconcile (.ok svc) env delResp = (⟨false, 0⟩, none, []) := by
  rw [Reconcile, if_neg h]

/-- Claim C9 witness: a ClusterIP Service is ignored. -/
theorem c9_type_filter_witness :
    Reconcile (.ok ⟨"s".data, "ClusterIP".data, [⟨[], 80, 8080⟩], [], false⟩)
        ⟨.ok none, .ok (), .ok (), .ok none, .ok none, .ok ()⟩ (.ok ()) =
      (⟨false, 0⟩, none, []) :=
  c9_type_filter _ _ _ (by decide)

/-- Claim C10. For every name whose name-plus-ownership listing is empty,
`UpdateLoadBalancer` returns the non-nil "load balancer ... not found"
error and performs no metadata write (the single call issued is the
listing). -/
theorem c10_update_not_found (env : UpdateEnv) (name : Str) (params : LoadBalancerParams)
    (h : env.list name = .ok []) :
    UpdateLoadBalancer env name params =
      (.error ("load balancer ".data ++ (name ++ " not found".data)), [.listInstances]) ∧
    containsSeq "not found".data ("load balancer ".data ++ (name ++ " not found".data)) = true := by
  constructor
  · rw [UpdateLoadBalancer, h]
  · apply containsSeq_middle _ _ ("load balancer ".data ++ (name ++ [' '])) []
    simp [List.append_assoc]

/-- Claim C10 witness: update against an empty listing for a concrete
name. -/
theorem c10_update_not_found_witness :
    UpdateLoadBalancer ⟨fun _ => .ok [], fun _ _ => .ok ()⟩ "web".data
        ⟨"web".data, [], 0, [], []⟩ =
      (.error ("load balancer ".data ++ ("web".data ++ " not found".data)), [.listInstances]) :=
  (c10_update_not_found _ _ _ rfl).1

end TritonLB
